import Mathlib

/-!
Verification of the benchmark workflow examples and the instrumentation
bootstrap of the `workflow` repository.

The TypeScript source is shallowly embedded:

* A step/workflow computation is a pair `(trace, value)`: the list of step
  invocations it performs (in call order) together with its result value.
  JavaScript numbers in these examples are small exact integers, so they are
  modelled as `Nat`/`Int`.
* A `ReadableStream<Uint8Array>` is modelled by the list of operations its
  underlying source performs on its controller (`enqueue` of a chunk, or
  `close`).  Chunks are modelled by their decoded text: `TextEncoder` /
  `TextDecoder` form an identity round trip on the ASCII data produced here.
* `Promise.race` over the values of a `Map` is nondeterministic; it is
  modelled by a schedule `Nat → Nat` choosing which pending entry settles
  at each iteration (taken modulo the current size, so every schedule is
  admissible).
* The `instrumentation.ts` top-level code is modelled as a function from the
  `NEXT_RUNTIME` environment variable and the world object to a record of
  the boundary effects it performs.
-/

namespace Workflow

/-- A step/workflow computation: the names of the steps it invokes, in call
order, paired with its result. -/
abbrev Step (α : Type) := List String × α

/-- Pure computation: no step invocations. -/
def stepPure {α : Type} (a : α) : Step α := ([], a)

/-- Sequencing of computations: traces concatenate in evaluation order. -/
def stepBind {α β : Type} (x : Step α) (f : α → Step β) : Step β :=
  let y := f x.2
  (x.1 ++ y.1, y.2)

/-- `doWork` ('use step'): returns 42. -/
def doWork : Step Nat := (["doWork"], 42)

/-- `noStepsWorkflow` ('use workflow'): `return input * 2`. -/
def noStepsWorkflow (input : Nat) : Step Nat :=
  stepPure (input * 2)

/-- `oneStepWorkflow` ('use workflow'):
`const result = await doWork(); return result + input`. -/
def oneStepWorkflow (input : Nat) : Step Nat :=
  stepBind doWork (fun result => stepPure (result + input))

/-- `tenSequentialStepsWorkflow` ('use workflow'): `let result = 0`, then the
loop body `result = await doWork()` runs for `i = 0 .. 9`, and `result` is
returned. -/
def tenSequentialStepsWorkflow : Step Nat :=
  (List.range 10).foldl (fun acc _ => stepBind acc (fun _ => doWork)) (stepPure 0)

/-- `Promise.all` over already-started computations: all traces have been
produced at start time (in submission order) and the results come back as a
list in original submission order. -/
def promiseAll {α : Type} (promises : List (Step α)) : Step (List α) :=
  (promises.flatMap (fun p => p.1), promises.map (fun p => p.2))

/-- `tenParallelStepsWorkflow` ('use workflow'): pushes ten `doWork()`
promises, awaits `Promise.all`, and reduces the results with
`(sum, val) => sum + val` from 0. -/
def tenParallelStepsWorkflow : Step Nat :=
  stepBind (promiseAll ((List.range 10).map (fun _ => doWork)))
    (fun results => stepPure (results.foldl (fun sum val => sum + val) 0))

/-- `stressTestStep` ('use step'): returns its argument `i`. -/
def stressTestStep (i : Nat) : Step Nat :=
  (["stressTestStep(" ++ toString i ++ ")"], i)

/-- The `results` list awaited inside `promiseAllStressTestWorkflow`:
`Promise.all` over `stressTestStep(0) .. stressTestStep(count-1)`. -/
def promiseAllStressResults (count : Nat) : Step (List Nat) :=
  promiseAll ((List.range count).map stressTestStep)

/-- `promiseAllStressTestWorkflow` ('use workflow'): starts
`stressTestStep(i)` for `i = 0 .. count-1`, awaits `Promise.all`, and
returns `results.length`. -/
def promiseAllStressTestWorkflow (count : Nat) : Step Nat :=
  stepBind (promiseAllStressResults count) (fun results => stepPure results.length)

/-! ### The `Promise.race` drain of `promiseRaceStressTestLargeWorkflow`

The `Map<number, Promise<number>>` is an insertion-ordered association list
of entries `(key, settled value of the stored promise)`.  `Promise.race` over
`runningTasks.values()` settles with the value of whichever pending promise
completes first; which one that is depends on the orchestrator's scheduling,
so it is modelled by a schedule `sched : Nat → Nat`, the choice at each
iteration being taken modulo the current map size.  `Map.delete(k)` removes
the (unique) entry with key `k`, modelled by erasing the first matching
entry. -/

/-- `runningTasks.delete(k)`: remove the entry with key `k`. -/
def mapDelete (k : Nat) (m : List (Nat × Nat)) : List (Nat × Nat) :=
  m.eraseP (fun kv => kv.1 == k)

/-- One `Promise.race(runningTasks.values())`: the settled value of the entry
the schedule picks.  Requires the map to be nonempty, as in the loop guard. -/
def raceValue (choice : Nat) (m : List (Nat × Nat)) (h : m ≠ []) : Nat :=
  (m.get ⟨choice % m.length, Nat.mod_lt _ (List.length_pos.mpr h)⟩).2

/-- The `while (runningTasks.size > 0)` loop: race, push the result onto
`done`, delete the result's key.  The loop has no intrinsic bound, so the
embedding carries fuel; `promiseRaceStressTestLargeWorkflow` supplies fuel
equal to the initial size, and the drain theorems show the loop always exits
through the empty-map test, never by exhausting fuel. -/
def raceDrainLoop (sched : Nat → Nat) :
    Nat → List (Nat × Nat) → List Nat → List Nat × List (Nat × Nat)
  | 0, m, done => (done, m)
  | fuel + 1, m, done =>
    if h : m = [] then (done, m)
    else
      let result := raceValue (sched fuel) m h
      raceDrainLoop sched fuel (mapDelete result m) (done ++ [result])

/-- The initial `runningTasks` map: `runningTasks.set(i, stressTestStep(i))`
for `i = 0 .. count-1`. -/
def initialRunningTasks (count : Nat) : List (Nat × Nat) :=
  (List.range count).map (fun i => (i, (stressTestStep i).2))

/-- The final `(done, runningTasks)` state of the drain loop of
`promiseRaceStressTestLargeWorkflow(count)` under a given schedule. -/
def promiseRaceDrain (sched : Nat → Nat) (count : Nat) :
    List Nat × List (Nat × Nat) :=
  raceDrainLoop sched count (initialRunningTasks count) []

/-- `promiseRaceStressTestLargeWorkflow` ('use workflow'): returns
`done.length` after the drain loop. -/
def promiseRaceStressTestLargeWorkflow (sched : Nat → Nat) (count : Nat) : Nat :=
  (promiseRaceDrain sched count).1.length

/-! ### Streams

A `ReadableStream<Uint8Array>` is modelled by the list of operations its
underlying source performs on its controller, in order.  A chunk is modelled
by its text (the `TextEncoder`/`TextDecoder` pair is an identity round trip
on the ASCII data of these benchmarks; `decode(chunk, { stream: true })` is
stateless on ASCII input). -/

/-- A controller operation of a readable stream source. -/
inductive StreamOp where
  | enqueue : String → StreamOp
  | close : StreamOp
deriving DecidableEq, Repr

/-- The chunks a reader obtains from a stream: the enqueued chunks that
precede the first `close`. -/
def streamChunks (ops : List StreamOp) : List String :=
  (ops.takeWhile (fun op => op ≠ StreamOp.close)).filterMap
    (fun op => match op with
      | StreamOp.enqueue c => some c
      | StreamOp.close => none)

/-- The `start(controller)` body of the stream built by `genBenchStream`:
`for (i = 0; i < 10; i++) controller.enqueue(encode(i + "\n"))` (with a
10 ms delay between chunks, irrelevant to the data), then
`controller.close()`. -/
def genBenchStreamOps : List StreamOp :=
  ((List.range 10).map (fun i => StreamOp.enqueue (toString i ++ "\n"))) ++
    [StreamOp.close]

/-- `genBenchStream` ('use step'): returns the stream above. -/
def genBenchStream : Workflow.Step (List StreamOp) :=
  (["genBenchStream"], genBenchStreamOps)

/-! ### JavaScript string/number primitives used by `doubleNumbers`

These mirror `String.prototype.split('\n')`, `String.prototype.trim`, and
`parseInt(s, 10)`.  They are written by structural recursion on the chunk's
characters.  (JS whitespace also includes `\v`, `\f` and some non-ASCII
code points; `Char.isWhitespace` covers the whitespace occurring in
newline-separated text segments.) -/

/-- Auxiliary splitter: accumulate the current segment (reversed) and cut at
each `'\n'`. -/
def jsSplitLinesAux : List Char → List Char → List String
  | [], acc => [String.mk acc.reverse]
  | c :: cs, acc =>
    if c = '\n' then String.mk acc.reverse :: jsSplitLinesAux cs []
    else jsSplitLinesAux cs (c :: acc)

/-- `text.split('\n')`: the newline-separated segments, keeping empty
segments (`"a\n".split('\n')` is `["a", ""]`, `"".split('\n')` is
`[""]`). -/
def jsSplitLines (text : String) : List String :=
  jsSplitLinesAux text.data []

/-- `line.trim()`: remove leading and trailing whitespace. -/
def jsTrim (line : String) : String :=
  String.mk (((line.data.dropWhile Char.isWhitespace).reverse.dropWhile
    Char.isWhitespace).reverse)

/-- `parseInt(s, 10)`: skip leading whitespace, read an optional sign, then
the longest run of decimal digits; `none` models `NaN` (no digits).  Values
are exact integers (the doubles involved here are exactly representable). -/
def jsParseInt (s : String) : Option Int :=
  let cs := s.data.dropWhile Char.isWhitespace
  let signed : Int × List Char :=
    match cs with
    | '-' :: rest => (-1, rest)
    | '+' :: rest => (1, rest)
    | _ => (1, cs)
  let ds := signed.2.takeWhile Char.isDigit
  if ds.isEmpty then none
  else some (signed.1 * (ds.foldl (fun acc c => acc * 10 + (c.toNat - 48)) 0 : Nat))

/-- Template-literal rendering `` `${num}` `` of a number that may be `NaN`
(`none`). -/
def jsNumToString (num : Option Int) : String :=
  match num with
  | none => "NaN"
  | some v => toString v

/-- The `transform(chunk, controller)` body of `doubleNumbers`: decode the
chunk, split on `'\n'`, and for each line with truthy `line.trim()` enqueue
`` `${parseInt(line, 10) * 2}\n` ``; the output chunks accumulate in
enqueue order. -/
def doubleNumbersTransform (chunk : String) : List String :=
  let lines := jsSplitLines chunk
  lines.foldl
    (fun enqueued line =>
      if jsTrim line ≠ "" then
        enqueued ++ [jsNumToString ((jsParseInt line).map (fun num => num * 2)) ++ "\n"]
      else enqueued)
    []

/-- `stream.pipeThrough(transformStream)`: each enqueued chunk is fed to the
transform in order (its outputs are enqueued downstream); when the source
closes, the transformed stream closes (no flush handler). -/
def pipeThrough (transform : String → List String) (ops : List StreamOp) :
    List StreamOp :=
  ops.flatMap
    (fun op => match op with
      | StreamOp.enqueue c => (transform c).map StreamOp.enqueue
      | StreamOp.close => [StreamOp.close])

/-- `doubleNumbers` ('use step'): pipes its argument through the transform
above. -/
def doubleNumbers (stream : List StreamOp) : Workflow.Step (List StreamOp) :=
  (["doubleNumbers"], pipeThrough doubleNumbersTransform stream)

/-- `streamWorkflow` ('use workflow'):
`const stream = await genBenchStream(); const doubled = await
doubleNumbers(stream); return doubled`. -/
def streamWorkflow : Workflow.Step (List StreamOp) :=
  Workflow.stepBind genBenchStream (fun stream => doubleNumbers stream)

end Workflow

namespace Instrumentation

/-! ### `workbench/nextjs-turbopack/instrumentation.ts`

The module's top-level code is:

```
registerOTel({ serviceName: 'example-nextjs-workflow' });
if (process.env.NEXT_RUNTIME !== 'edge') {
  import('workflow/api').then(async ({ getWorld }) => {
    await getWorld().start?.();
  });
}
```

It is modelled as a function from the `NEXT_RUNTIME` environment variable
(`none` = unset) and the world object returned by `getWorld()` to a record
of the boundary effects performed.  The optional asynchronous `start`
operation is `none` when the world object lacks a `start` method; when
present, its value is the outcome of awaiting `start()` (`Except.error e`
models a rejected promise).  Nothing in the source catches an error, so the
outcome of the asynchronous bootstrap chain is the start hook's outcome,
propagated unchanged. -/

/-- The world object exposed by the workflow API module: an optional
asynchronous `start` operation, whose awaited outcome is a resolution or a
rejection. -/
structure World where
  start : Option (Except String Unit)

/-- The observable boundary effects of running the module top level. -/
structure BootstrapEffects where
  /-- Service name passed to `registerOTel`, when telemetry is registered. -/
  telemetryServiceName : Option String
  /-- Whether `import('workflow/api')` is evaluated. -/
  apiModuleLoaded : Bool
  /-- Whether the optional call `getWorld().start?.()` is evaluated. -/
  startHookAttempted : Bool
  /-- Whether a `start` function is actually called. -/
  startHookInvoked : Bool
  /-- Outcome of the asynchronous chain: the awaited start hook's outcome,
  propagated without any catch, retry, or classification; resolution when the
  hook is skipped or absent. -/
  outcome : Except String Unit
deriving Repr

/-- The module top level of `instrumentation.ts`. -/
def instrumentationBootstrap (nextRuntime : Option String) (world : World) :
    BootstrapEffects :=
  if nextRuntime ≠ some "edge" then
    { telemetryServiceName := some "example-nextjs-workflow"
      apiModuleLoaded := true
      startHookAttempted := true
      startHookInvoked := world.start.isSome
      outcome := world.start.getD (Except.ok ()) }
  else
    { telemetryServiceName := some "example-nextjs-workflow"
      apiModuleLoaded := false
      startHookAttempted := false
      startHookInvoked := false
      outcome := Except.ok () }

end Instrumentation

/-! ## Helper lemmas -/

/-- A fold that conditionally appends one element is the map of the filter,
after the accumulator. -/
theorem foldl_enqueue_eq_filter_map (p : String → Prop) [DecidablePred p]
    (f : String → String) (l : List String) (acc : List String) :
    l.foldl (fun enqueued line => if p line then enqueued ++ [f line] else enqueued) acc
      = acc ++ (l.filter (fun line => p line)).map f := by
  induction l generalizing acc with
  | nil => simp
  | cons x l ih => by_cases h : p x <;> simp [h, ih]

/-! ## C7, C9: zero-, one- and ten-sequential-step workflows -/

/-- C7: workflows compose zero or one step as pure functions of their
numeric input: `noStepsWorkflow(n)` invokes no step and returns `n * 2`,
and `oneStepWorkflow(n)` invokes the step `doWork` exactly once when awaited
directly and returns the step's result (42) plus `n`. -/
theorem noSteps_oneStep_pure_functions (n : Nat) :
    Workflow.noStepsWorkflow n = ([], n * 2) ∧
    Workflow.oneStepWorkflow n = (["doWork"], 42 + n) := by
  constructor
  · rfl
  · simp [Workflow.oneStepWorkflow, Workflow.stepBind, Workflow.stepPure,
      Workflow.doWork, Nat.add_comm]

/-- C9: `tenSequentialStepsWorkflow()` awaits `doWork` ten times in sequence
but overwrites its `result` variable each time, so it returns only the final
step's result, 42 — not a combination of the ten results (their sum would be
420). -/
theorem tenSequential_returns_final_only :
    Workflow.tenSequentialStepsWorkflow = (List.replicate 10 "doWork", 42) ∧
    Workflow.tenSequentialStepsWorkflow.2 ≠ 420 := by
  constructor <;> decide

/-! ## C2: parallel fan-out/fan-in -/

/-- C2: a fixed set of concurrently started steps awaited together comes
back in original submission order with every started unit observed exactly
once: the ten parallel `doWork` results are the ten 42s in submission order
and `tenParallelStepsWorkflow()` returns their sum 420; the
`promiseAllStressTestWorkflow(count)` result list is
`[0, 1, ..., count-1]` — each started unit exactly once, in submission
order — and the workflow returns `count`. -/
theorem parallel_fan_in_results :
    (Workflow.promiseAll ((List.range 10).map (fun _ => Workflow.doWork))).2
      = List.replicate 10 42 ∧
    Workflow.tenParallelStepsWorkflow.2 = 420 ∧
    ∀ count : Nat,
      (Workflow.promiseAllStressResults count).2 = List.range count ∧
      (Workflow.promiseAllStressTestWorkflow count).2 = count := by
  refine ⟨by decide, by decide, fun count => ?_⟩
  have hres : (Workflow.promiseAllStressResults count).2 = List.range count := by
    simp [Workflow.promiseAllStressResults, Workflow.promiseAll,
      Workflow.stressTestStep, Function.comp_def]
  exact ⟨hres, by
    simp [Workflow.promiseAllStressTestWorkflow, Workflow.stepBind,
      Workflow.stepPure, hres]⟩

/-! ## C10: the `doubleNumbers` transform, chunk by chunk -/

/-- C10: on every input chunk, `doubleNumbers` emits exactly one output
chunk per non-blank newline-separated segment — the segment parsed as a
decimal integer, multiplied by two, followed by a newline — and
whitespace-only segments (including the empty segment after a trailing
newline) produce no output chunk. -/
theorem doubleNumbers_chunk_segments (chunk : String) :
    Workflow.doubleNumbersTransform chunk
      = ((Workflow.jsSplitLines chunk).filter (fun line => Workflow.jsTrim line ≠ "")).map
          (fun line =>
            Workflow.jsNumToString ((Workflow.jsParseInt line).map (fun num => num * 2))
              ++ "\n") := by
  unfold Workflow.doubleNumbersTransform
  exact foldl_enqueue_eq_filter_map (fun line => Workflow.jsTrim line ≠ "") _ _ []

/-! ## C3: the streaming pipeline -/

/-- C3: `streamWorkflow()` composes the producing step and the transforming
step: the producer emits exactly the ten chunks `"0\n" .. "9\n"` in order
and then closes, every produced chunk is delivered (its controller operation
occurs) strictly before the close is observed, and the composed output
stream yields `"0\n", "2\n", ..., "18\n"` in the same order. -/
theorem streamWorkflow_pipeline :
    Workflow.streamChunks Workflow.genBenchStream.2
      = ["0\n", "1\n", "2\n", "3\n", "4\n", "5\n", "6\n", "7\n", "8\n", "9\n"] ∧
    (∀ i j : Fin Workflow.genBenchStream.2.length,
      Workflow.genBenchStream.2.get i ≠ Workflow.StreamOp.close →
      Workflow.genBenchStream.2.get j = Workflow.StreamOp.close →
      (i : Nat) < (j : Nat)) ∧
    Workflow.streamChunks Workflow.streamWorkflow.2
      = ["0\n", "2\n", "4\n", "6\n", "8\n", "10\n", "12\n", "14\n", "16\n", "18\n"] := by
  refine ⟨by decide, by decide, by decide⟩

/-! ## C1, C8: the `Promise.race` drain loop -/

/-- The value `Promise.race` settles with is the stored value of some entry
of the current map. -/
theorem raceValue_mem (choice : Nat) (m : List (Nat × Nat)) (h : m ≠ []) :
    ∃ kv ∈ m, Workflow.raceValue choice m h = kv.2 :=
  ⟨_, List.get_mem _ _ _, rfl⟩

/-- Erasing the first element satisfying `p` from a list containing one
splits the list around an erased element satisfying `p` and shortens it by
exactly one. -/
theorem eraseP_structure {α : Type} (p : α → Bool) {l : List α} {a : α}
    (hmem : a ∈ l) (hpa : p a = true) :
    ∃ b l₁ l₂, p b = true ∧ l = l₁ ++ b :: l₂ ∧ l.eraseP p = l₁ ++ l₂ ∧
      (l.eraseP p).length = l.length - 1 := by
  obtain ⟨b, l₁, l₂, _, h2, h3, h4⟩ := List.exists_of_eraseP hmem hpa
  exact ⟨b, l₁, l₂, h2, h3, h4, List.length_eraseP_of_mem hmem hpa⟩

/-- Main drain-loop lemma: when every pending entry's settled value is its
own key and the fuel covers the map size, the loop empties the map and the
drained list extends `done` by a permutation of the stored values. -/
theorem raceDrainLoop_spec (sched : Nat → Nat) :
    ∀ (fuel : Nat) (m : List (Nat × Nat)) (done : List Nat),
      (∀ kv ∈ m, kv.2 = kv.1) → m.length ≤ fuel →
      (Workflow.raceDrainLoop sched fuel m done).2 = [] ∧
      (Workflow.raceDrainLoop sched fuel m done).1.Perm
        (done ++ m.map (fun kv => kv.2)) := by
  intro fuel
  induction fuel with
  | zero =>
    intro m done hinv hlen
    have hm : m = [] := List.eq_nil_of_length_eq_zero (Nat.le_zero.mp hlen)
    subst hm
    simp [Workflow.raceDrainLoop]
  | succ fuel ih =>
    intro m done hinv hlen
    by_cases h : m = []
    · subst h
      simp [Workflow.raceDrainLoop]
    · have hval : Workflow.raceValue (sched fuel) m h
          = (m.get ⟨sched fuel % m.length,
              Nat.mod_lt _ (List.length_pos.mpr h)⟩).2 := rfl
      have hmem : m.get ⟨sched fuel % m.length,
          Nat.mod_lt _ (List.length_pos.mpr h)⟩ ∈ m := List.get_mem _ _ _
      have hkey : Workflow.raceValue (sched fuel) m h
          = (m.get ⟨sched fuel % m.length,
              Nat.mod_lt _ (List.length_pos.mpr h)⟩).1 :=
        hval.trans (hinv _ hmem)
      have hpe : ((m.get ⟨sched fuel % m.length,
          Nat.mod_lt _ (List.length_pos.mpr h)⟩).1
            == Workflow.raceValue (sched fuel) m h) = true := by
        simp [hkey]
      obtain ⟨a, l₁, l₂, hpa, hm_eq, herase, hdec⟩ :=
        eraseP_structure
          (fun kv => kv.1 == Workflow.raceValue (sched fuel) m h) hmem hpe
      have ha1 : a.1 = Workflow.raceValue (sched fuel) m h := by
        simpa using hpa
      have hamem : a ∈ m := by
        rw [hm_eq]
        exact List.mem_append_right _ (List.mem_cons_self _ _)
      have ha2 : a.2 = Workflow.raceValue (sched fuel) m h :=
        (hinv a hamem).trans ha1
      have hdel : Workflow.mapDelete (Workflow.raceValue (sched fuel) m h) m
          = l₁ ++ l₂ := herase
      have hinv' : ∀ kv ∈ Workflow.mapDelete
          (Workflow.raceValue (sched fuel) m h) m, kv.2 = kv.1 :=
        fun kv hkv => hinv kv (List.eraseP_subset _ hkv)
      have hlen' : (Workflow.mapDelete
          (Workflow.raceValue (sched fuel) m h) m).length ≤ fuel := by
        have hpos : 0 < m.length := List.length_pos.mpr h
        have : (Workflow.mapDelete (Workflow.raceValue (sched fuel) m h)
            m).length = m.length - 1 := hdec
        omega
      obtain ⟨hempty, hperm⟩ := ih _ _ hinv' hlen'
      have hstep : Workflow.raceDrainLoop sched (fuel + 1) m done
          = Workflow.raceDrainLoop sched fuel
              (Workflow.mapDelete (Workflow.raceValue (sched fuel) m h) m)
              (done ++ [Workflow.raceValue (sched fuel) m h]) := by
        simp [Workflow.raceDrainLoop, h]
      rw [hstep]
      refine ⟨hempty, hperm.trans ?_⟩
      rw [hdel]
      conv_rhs => rw [hm_eq]
      simp only [List.map_append, List.map_cons, List.append_assoc,
        List.singleton_append, List.cons_append, List.nil_append]
      refine List.Perm.append_left done ?_
      rw [← ha2]
      exact List.perm_middle.symm

/-- C1: for every `count ≥ 0` and every completion schedule,
`promiseRaceStressTestLargeWorkflow(count)` terminates with the tracking map
empty, each started unit's entry drained exactly once (the drained list is a
permutation of the started keys `0 .. count-1`), and the returned length of
the drained list equal to `count`. -/
theorem promiseRace_progressive_drain (sched : Nat → Nat) (count : Nat) :
    (Workflow.promiseRaceDrain sched count).2 = [] ∧
    (Workflow.promiseRaceDrain sched count).1.Perm (List.range count) ∧
    Workflow.promiseRaceStressTestLargeWorkflow sched count = count := by
  have hinv : ∀ kv ∈ Workflow.initialRunningTasks count, kv.2 = kv.1 := by
    intro kv hkv
    simp only [Workflow.initialRunningTasks, Workflow.stressTestStep,
      List.mem_map, List.mem_range] at hkv
    obtain ⟨i, _, rfl⟩ := hkv
    rfl
  have hlen : (Workflow.initialRunningTasks count).length ≤ count := by
    simp [Workflow.initialRunningTasks]
  obtain ⟨h1, h2⟩ := raceDrainLoop_spec sched count
    (Workflow.initialRunningTasks count) [] hinv hlen
  have hmap : (Workflow.initialRunningTasks count).map (fun kv => kv.2)
      = List.range count := by
    simp [Workflow.initialRunningTasks, Workflow.stressTestStep,
      Function.comp_def]
  rw [hmap, List.nil_append] at h2
  refine ⟨h1, h2, ?_⟩
  have := h2.length_eq
  simpa [Workflow.promiseRaceStressTestLargeWorkflow] using this

/-- C8: the drain loop makes progress because `stressTestStep(i)` returns
its own argument `i`, which is also the key its promise is stored under:
every entry of the initial tracking map stores its key as its value, every
raced-out result is a key present in the map, and deleting it removes
exactly one entry, so the map size strictly decreases on every iteration. -/
theorem race_result_is_present_key (mRT : List (Nat × Nat))
    (hinv : ∀ kv ∈ mRT, kv.2 = kv.1) (h : mRT ≠ []) (choice : Nat) :
    (∀ i : Nat, (Workflow.stressTestStep i).2 = i) ∧
    (∀ count : Nat, ∀ kv ∈ Workflow.initialRunningTasks count, kv.2 = kv.1) ∧
    Workflow.raceValue choice mRT h ∈ mRT.map (fun kv => kv.1) ∧
    (Workflow.mapDelete (Workflow.raceValue choice mRT h) mRT).length + 1
      = mRT.length := by
  refine ⟨fun i => rfl, ?_, ?_, ?_⟩
  · intro count kv hkv
    simp only [Workflow.initialRunningTasks, Workflow.stressTestStep,
      List.mem_map, List.mem_range] at hkv
    obtain ⟨i, _, rfl⟩ := hkv
    rfl
  · have hval : Workflow.raceValue choice mRT h
        = (mRT.get ⟨choice % mRT.length,
            Nat.mod_lt _ (List.length_pos.mpr h)⟩).2 := rfl
    have hmem : mRT.get ⟨choice % mRT.length,
        Nat.mod_lt _ (List.length_pos.mpr h)⟩ ∈ mRT := List.get_mem _ _ _
    rw [hval, hinv _ hmem]
    exact List.mem_map_of_mem _ hmem
  · have hmem : mRT.get ⟨choice % mRT.length,
        Nat.mod_lt _ (List.length_pos.mpr h)⟩ ∈ mRT := List.get_mem _ _ _
    have hpe : ((mRT.get ⟨choice % mRT.length,
        Nat.mod_lt _ (List.length_pos.mpr h)⟩).1
          == Workflow.raceValue choice mRT h) = true := by
      have : Workflow.raceValue choice mRT h
          = (mRT.get ⟨choice % mRT.length,
              Nat.mod_lt _ (List.length_pos.mpr h)⟩).1 :=
        (rfl : Workflow.raceValue choice mRT h = _).trans (hinv _ hmem)
      simp [this]
    obtain ⟨b, l₁, l₂, _, _, _, hdec⟩ :=
      eraseP_structure
        (fun kv => kv.1 == Workflow.raceValue choice mRT h) hmem hpe
    have hpos : 0 < mRT.length := List.length_pos.mpr h
    have : (Workflow.mapDelete (Workflow.raceValue choice mRT h) mRT).length
        = mRT.length - 1 := hdec
    omega

/-- Witness for C8's theorem at the concrete map `{0 ↦ 0, 1 ↦ 1}` with the
schedule picking the second entry. -/
theorem race_result_is_present_key_witness :
    Workflow.raceValue 1 [(0, 0), (1, 1)] (by decide) ∈
      ([(0, 0), (1, 1)] : List (Nat × Nat)).map (fun kv => kv.1) ∧
    (Workflow.mapDelete (Workflow.raceValue 1 [(0, 0), (1, 1)] (by decide))
      [(0, 0), (1, 1)]).length + 1
        = ([(0, 0), (1, 1)] : List (Nat × Nat)).length :=
  ⟨(race_result_is_present_key [(0, 0), (1, 1)] (by decide) (by decide) 1).2.2.1,
   (race_result_is_present_key [(0, 0), (1, 1)] (by decide) (by decide) 1).2.2.2⟩

/-! ## C4, C5, C6: the instrumentation bootstrap -/

/-- C4: when `NEXT_RUNTIME` is the sentinel `'edge'`, the bootstrap neither
loads the workflow API module nor invokes the startup hook; for every other
value (including unset), the module is loaded and the optional start call
`getWorld().start?.()` is performed (so a present `start` is invoked). -/
theorem edge_sentinel_gates_startup (nextRuntime : Option String)
    (world : Instrumentation.World) :
    (nextRuntime = some "edge" →
      (Instrumentation.instrumentationBootstrap nextRuntime world).apiModuleLoaded
          = false ∧
      (Instrumentation.instrumentationBootstrap nextRuntime world).startHookAttempted
          = false ∧
      (Instrumentation.instrumentationBootstrap nextRuntime world).startHookInvoked
          = false) ∧
    (nextRuntime ≠ some "edge" →
      (Instrumentation.instrumentationBootstrap nextRuntime world).apiModuleLoaded
          = true ∧
      (Instrumentation.instrumentationBootstrap nextRuntime world).startHookAttempted
          = true ∧
      (Instrumentation.instrumentationBootstrap nextRuntime world).startHookInvoked
          = world.start.isSome) := by
  constructor
  · intro h
    simp [Instrumentation.instrumentationBootstrap, h]
  · intro h
    simp [Instrumentation.instrumentationBootstrap, h]

/-- Witness for C4's theorem: the edge sentinel suppresses the load, the
unset variable allows it, evaluated on a world with a resolving hook. -/
theorem edge_sentinel_gates_startup_witness :
    (Instrumentation.instrumentationBootstrap (some "edge")
      ⟨some (Except.ok ())⟩).apiModuleLoaded = false ∧
    (Instrumentation.instrumentationBootstrap none
      ⟨some (Except.ok ())⟩).apiModuleLoaded = true :=
  ⟨((edge_sentinel_gates_startup (some "edge") ⟨some (Except.ok ())⟩).1 rfl).1,
   ((edge_sentinel_gates_startup none ⟨some (Except.ok ())⟩).2 (by simp)).1⟩

/-- C5: outside an edge environment the bootstrap performs all three
boundary actions — registers telemetry under the fixed service name
`'example-nextjs-workflow'`, loads the workflow API module, and performs the
optional startup-hook call. -/
theorem nonedge_bootstrap_three_actions (nextRuntime : Option String)
    (world : Instrumentation.World) (h : nextRuntime ≠ some "edge") :
    (Instrumentation.instrumentationBootstrap nextRuntime world).telemetryServiceName
        = some "example-nextjs-workflow" ∧
    (Instrumentation.instrumentationBootstrap nextRuntime world).apiModuleLoaded
        = true ∧
    (Instrumentation.instrumentationBootstrap nextRuntime world).startHookAttempted
        = true := by
  simp [Instrumentation.instrumentationBootstrap, h]

/-- Witness for C5's theorem with `NEXT_RUNTIME` unset. -/
theorem nonedge_bootstrap_three_actions_witness :
    (Instrumentation.instrumentationBootstrap none
      ⟨some (Except.ok ())⟩).telemetryServiceName
        = some "example-nextjs-workflow" ∧
    (Instrumentation.instrumentationBootstrap none
      ⟨some (Except.ok ())⟩).apiModuleLoaded = true ∧
    (Instrumentation.instrumentationBootstrap none
      ⟨some (Except.ok ())⟩).startHookAttempted = true :=
  nonedge_bootstrap_three_actions none ⟨some (Except.ok ())⟩ (by simp)

/-- C6 counterexample: a world object lacking a `start` method is NOT a
failure left to propagate — with `NEXT_RUNTIME` unset and `start` absent,
the optional-chaining call `getWorld().start?.()` is skipped and the
asynchronous chain resolves (`Except.ok`), with no rejection. -/
theorem missing_start_resolves :
    (Instrumentation.instrumentationBootstrap none ⟨none⟩).startHookAttempted
        = true ∧
    (Instrumentation.instrumentationBootstrap none ⟨none⟩).startHookInvoked
        = false ∧
    (Instrumentation.instrumentationBootstrap none ⟨none⟩).outcome
        = Except.ok () := by
  refine ⟨rfl, rfl, rfl⟩

/-- C6 (amended): failures in the bootstrap propagate as standard
asynchronous rejections with no catch, retry, or classification — a rejected
startup hook's rejection propagates unchanged — while a world object lacking
a `start` method causes no failure at all: the optional call is skipped and
the chain resolves. -/
theorem bootstrap_error_propagation (nextRuntime : Option String)
    (world : Instrumentation.World) (e : String)
    (h : nextRuntime ≠ some "edge") :
    (world.start = some (Except.error e) →
      (Instrumentation.instrumentationBootstrap nextRuntime world).outcome
          = Except.error e) ∧
    (world.start = none →
      (Instrumentation.instrumentationBootstrap nextRuntime world).outcome
          = Except.ok () ∧
      (Instrumentation.instrumentationBootstrap nextRuntime world).startHookInvoked
          = false) := by
  constructor
  · intro hs
    simp [Instrumentation.instrumentationBootstrap, h, hs]
  · intro hs
    simp [Instrumentation.instrumentationBootstrap, h, hs]

/-- Witness for the amended C6 theorem: a hook rejecting with `"boom"`
propagates unchanged when `NEXT_RUNTIME` is unset. -/
theorem bootstrap_error_propagation_witness :
    (Instrumentation.instrumentationBootstrap none
      ⟨some (Except.error "boom")⟩).outcome = Except.error "boom" :=
  (bootstrap_error_propagation none ⟨some (Except.error "boom")⟩ "boom"
    (by simp)).1 rfl
